import Mathlib

/-!
Verification of the mock-interview workflow of the `ai-interview-coach`
repository.  The embedding models:

* the persisted data model (`interviews`, `questions`, `answers` tables from
  the SQL migration),
* the Interview Session Controller of `src/pages/Interview.tsx`
  (`fetchInterview`, `generateNextQuestion`, `handleSubmitAnswer`,
  `generateFinalFeedback`) as pure functions over explicit state plus
  abstract Generation Service responses,
* the setup flow of `src/pages/Setup.tsx` (`handleStartInterview` and the
  component-state setters), and
* the Deno edge function (the generation proxy) error dispatch.

JavaScript numbers carrying scores are modelled as rationals (scores are
small decimals, `DECIMAL(3,1)` in the schema); JavaScript `||` fallbacks
are modelled by explicit truthiness helpers (`0`, `""`, `null`/`undefined`
are falsy; an array, even empty, is truthy).  `JSON.parse` of a free-text
model response is abstracted as an optional structured payload carried
next to the raw text: `none` models a parse failure (or a parse producing
no usable object), `some p` a successful parse whose absent/`null` fields
are `none` inside `p`.
-/

namespace InterviewCoach

/-- JavaScript `String.prototype.trim`: strip leading and trailing
whitespace. -/
def jsTrim (s : String) : String :=
  String.mk (((s.data.dropWhile Char.isWhitespace).reverse.dropWhile
    Char.isWhitespace).reverse)

/-- JavaScript `v || d` for an optional numeric field: `undefined`/`null`
and `0` are falsy and fall back to the default. -/
def jsOrQ (v : Option ℚ) (d : ℚ) : ℚ :=
  match v with
  | none => d
  | some x => if x = 0 then d else x

/-- JavaScript `v || d` for an optional string field: `undefined`/`null`
and the empty string are falsy and fall back to the default. -/
def jsOrStr (v : Option String) (d : String) : String :=
  match v with
  | none => d
  | some s => if s = "" then d else s

/-- JavaScript `v || d` for an optional array field: only
`undefined`/`null` fall back — an empty array is truthy. -/
def jsOrList (v : Option (List String)) (d : List String) : List String :=
  match v with
  | none => d
  | some l => l

/-- The `interview_status` enum of the migration. -/
inductive IStatus where
  | in_progress
  | completed
  | cancelled
deriving DecidableEq, Repr

/-- A row of the `interviews` table (fields used by the workflow). -/
structure Interview where
  user_id : String
  job_role : String
  difficulty : String
  interview_type : String
  total_questions : Nat
  status : IStatus
  overall_score : Option ℚ
  strengths : Option (List String)
  improvements : Option (List String)
  created_at : Nat
  completed_at : Option Nat
deriving DecidableEq, Repr

/-- A row of the `answers` table (fields used by the workflow). -/
structure AnswerRow where
  answer_text : String
  ai_feedback : String
  score : ℚ
deriving DecidableEq, Repr

/-- A row of the `questions` table together with its (at most one, as the
workflow only ever creates and reads one) answer, as fetched by
`select('*, answers(*)')`. -/
structure QuestionRow where
  question_text : String
  question_order : Nat
  answer : Option AnswerRow
deriving DecidableEq, Repr

/-- In-memory `QA` record of `Interview.tsx`. -/
structure QA where
  question : String
  answer : String
  feedback : Option String
  score : Option ℚ
deriving DecidableEq, Repr

/-- The mapping `questionsData.map(q => (...))` from `fetchInterview`: the JS `||`
chain makes a score of `0` and an empty feedback string collapse to
`undefined`. -/
def toQA (q : QuestionRow) : QA :=
  { question := q.question_text
    answer := jsOrStr (q.answer.map (·.answer_text)) ""
    feedback :=
      match q.answer with
      | none => none
      | some a => if a.ai_feedback = "" then none else some a.ai_feedback
    score :=
      match q.answer with
      | none => none
      | some a => if a.score = 0 then none else some a.score }

/-- Structured payload of an `evaluate_answer` response after a successful
`JSON.parse`; a field the parse did not produce is `none`. -/
structure EvalPayload where
  score : Option ℚ
  feedback : Option String
deriving DecidableEq, Repr

/-- An `evaluate_answer` response: the raw text plus the outcome of
`JSON.parse` on it (`none` = the parse threw). -/
structure EvalResponse where
  raw : String
  parse : Option EvalPayload
deriving DecidableEq, Repr

/-- Defensive parse in `handleSubmitAnswer`: try `JSON.parse`; on success
`feedback = parsed.feedback || raw`, `score = parsed.score || 5`; on
failure `feedback = raw` and the initial `score = 5` stands.  Returns
`(feedback, score)`. -/
def evalParse (r : EvalResponse) : String × ℚ :=
  match r.parse with
  | none => (r.raw, 5)
  | some p => (jsOrStr p.feedback r.raw, jsOrQ p.score 5)

/-- Structured payload of a `generate_feedback` response after a
successful `JSON.parse`. -/
structure FeedbackPayload where
  overallScore : Option ℚ
  strengths : Option (List String)
  improvements : Option (List String)
deriving DecidableEq, Repr

/-- A `generate_feedback` response: raw text plus `JSON.parse` outcome. -/
structure FeedbackResponse where
  raw : String
  parse : Option FeedbackPayload
deriving DecidableEq, Repr

/-- The mean `history.reduce((sum, qa) => sum + (qa.score || 5), 0) / history.length`. -/
def avgScore (history : List QA) : ℚ :=
  (history.map (fun qa => jsOrQ qa.score 5)).sum / history.length

/-- The expression `Math.round(x * 10) / 10` — rounding to one decimal place
(`Math.round` is floor of `x + 1/2`). -/
def round1 (x : ℚ) : ℚ := (⌊x * 10 + 1 / 2⌋ : ℚ) / 10

/-- Defensive parse in `generateFinalFeedback`: on `JSON.parse` success
`overallScore = parsed.overallScore || 5`, `strengths = parsed.strengths
|| []`, `improvements = parsed.improvements || []`; on failure the overall
score is the one-decimal-rounded mean of the per-turn scores and the
initial empty lists stand.  Returns `(overallScore, strengths,
improvements)`. -/
def feedbackParse (r : FeedbackResponse) (history : List QA) :
    ℚ × List String × List String :=
  match r.parse with
  | none => (round1 (avgScore history), [], [])
  | some p =>
      (jsOrQ p.overallScore 5, jsOrList p.strengths [], jsOrList p.improvements [])

/-- Component state of `Interview.tsx` together with the persisted rows it
operates on: the interview row, its questions (with their answers) ordered
by `question_order`, the in-memory `qaHistory`, and whether a
`currentQuestion` is being displayed (when it is, it is always the last
persisted question — the one just generated or the resumed unanswered
one). -/
structure UIState where
  interview : Interview
  questions : List QuestionRow
  qaHistory : List QA
  hasCurrent : Bool
deriving DecidableEq, Repr

/-- Number of questions that have an answer row. -/
def answeredCount (qs : List QuestionRow) : Nat :=
  (qs.filter (fun q => q.answer.isSome)).length

/-- Attach an answer row to the last question of the list — the
`answers.insert({question_id: currentQuestionId, ...})` write, with
`currentQuestionId` pointing at the last question. -/
def answerLast : List QuestionRow → AnswerRow → List QuestionRow
  | [], _ => []
  | [q], a => [{ q with answer := some a }]
  | q :: q' :: qs, a => q :: answerLast (q' :: qs) a

/-- Function `handleSubmitAnswer` of `Interview.tsx`, given the outcome of the
`evaluate_answer` invoke.  Guard: the answer must be non-empty after
trimming (`if (!userAnswer.trim() || !interview) return`).  On an invoke
error everything is caught and nothing changes.  On success the response
is defensively parsed, one answer row is persisted for the current (last)
question, the Q&A is appended to the in-memory history and the current
question is cleared (the follow-up generate/finalize invoke is a separate
operation). -/
def handleSubmitAnswer (u : UIState) (ans : String)
    (resp : Except Unit EvalResponse) : UIState :=
  if jsTrim ans = "" then u
  else
    match resp with
    | .error _ => u
    | .ok r =>
        let fs := evalParse r
        { u with
          questions := answerLast u.questions ⟨ans, fs.1, fs.2⟩
          qaHistory := u.qaHistory ++
            [{ question := jsOrStr (u.questions.getLast?.map (·.question_text)) ""
               answer := ans
               feedback := some fs.1
               score := some fs.2 }]
          hasCurrent := false }

/-- Function `generateNextQuestion` of `Interview.tsx`, given the outcome of the
`generate_question` invoke.  On error nothing changes; on success the
returned text is trimmed and persisted as a new question row with
`question_order: history.length + 1` (the in-memory history), which then
becomes the current question. -/
def generateNextQuestion (u : UIState)
    (resp : Except Unit String) : UIState :=
  match resp with
  | .error _ => u
  | .ok text =>
      { u with
        questions := u.questions ++
          [{ question_text := jsTrim text
             question_order := u.qaHistory.length + 1
             answer := none }]
        hasCurrent := true }

/-- The `interviews.update({...})` write of `generateFinalFeedback`: one
update setting status, overall score, strengths, improvements and the
completion timestamp together. -/
def finalizeUpdate (iv : Interview) (sc : ℚ)
    (st im : List String) (now : Nat) : Interview :=
  { iv with
    status := .completed
    overall_score := some sc
    strengths := some st
    improvements := some im
    completed_at := some now }

/-- Function `generateFinalFeedback` of `Interview.tsx`, given the outcome of the
`generate_feedback` invoke and the current time.  On error nothing
changes; on success the response is defensively parsed against the
in-memory history and the interview row is updated to completed in a
single write. -/
def generateFinalFeedback (u : UIState)
    (resp : Except Unit FeedbackResponse) (now : Nat) : UIState :=
  match resp with
  | .error _ => u
  | .ok r =>
      let p := feedbackParse r u.qaHistory
      { u with interview := finalizeUpdate u.interview p.1 p.2.1 p.2.2 now }

/-- What `fetchInterview` does after loading the rows.  It mirrors the
branch structure of the source: completed → redirect to results; no
questions → generate question 1 with empty history; last question
unanswered → show it, history = all rows but the last; all answered and
fewer than `total_questions` → generate the next question (order
`history.length + 1`); otherwise → final feedback. -/
inductive ResumeAction where
  | redirectResults
  | awaitQuestion (nextOrder : Nat) (history : List QA)
  | awaitAnswer (questionText : String) (history : List QA)
  | evaluating (history : List QA)
deriving DecidableEq, Repr

/-- The dispatch of `fetchInterview` as a pure function of the loaded
interview row and its ordered question rows. -/
def fetchResumeAction (iv : Interview) (qs : List QuestionRow) : ResumeAction :=
  if iv.status = .completed then .redirectResults
  else
    match qs.getLast? with
    | none => .awaitQuestion 1 []
    | some last =>
        let existingQA := qs.map toQA
        if last.answer.isNone then
          .awaitAnswer last.question_text existingQA.dropLast
        else if qs.length < iv.total_questions then
          .awaitQuestion (existingQA.length + 1) existingQA
        else
          .evaluating existingQA

/-- The in-memory effect of a resume (`fetchInterview`) on the component
state: `qaHistory` and the current question are recomputed from the
persisted rows (`setQaHistory(existingQA)`, and on an unanswered last
question `setQaHistory(existingQA.slice(0, -1))` with the question shown
again). -/
def resumeUI (u : UIState) : UIState :=
  match u.questions.getLast? with
  | none => { u with qaHistory := [], hasCurrent := false }
  | some last =>
      if last.answer.isNone then
        { u with qaHistory := (u.questions.map toQA).dropLast, hasCurrent := true }
      else
        { u with qaHistory := u.questions.map toQA, hasCurrent := false }

/-- A freshly created interview (the `interviews.insert` of `Setup.tsx`):
status `in_progress`, no aggregate fields, no questions, empty history. -/
def initUI (uid role diff itype : String) (total : Nat) (created : Nat) : UIState :=
  { interview :=
      { user_id := uid
        job_role := role
        difficulty := diff
        interview_type := itype
        total_questions := total
        status := .in_progress
        overall_score := none
        strengths := none
        improvements := none
        created_at := created
        completed_at := none }
    questions := []
    qaHistory := []
    hasCurrent := false }

/-- One successful workflow operation, with the guards of its call sites
in the source.  A failed Generation Service call leaves the state
unchanged (each handler catches and only toasts), so failures need no
transition.

* `genQ`: `generateNextQuestion` is invoked from `fetchInterview` when the
  last question is answered (or none exists) and fewer than
  `total_questions` rows exist, and from `handleSubmitAnswer` when
  `updatedHistory.length < total_questions` — in both cases no current
  question is pending, the interview is in progress, and
  `history.length < total_questions`.
* `submit`: `handleSubmitAnswer` requires a displayed current question and
  a non-blank answer.
* `finalize`: `generateFinalFeedback` is invoked when every question is
  answered and `history.length ≥ total_questions`.
* `resume`: a reload re-runs `fetchInterview`, which recomputes the
  in-memory state from the persisted rows unless the interview is
  completed (then it redirects away from the workflow). -/
inductive Step : UIState → UIState → Prop where
  | genQ (u : UIState) (text : String)
      (hst : u.interview.status = .in_progress)
      (hcur : u.hasCurrent = false)
      (hlen : u.qaHistory.length < u.interview.total_questions) :
      Step u (generateNextQuestion u (.ok text))
  | submit (u : UIState) (ans : String) (r : EvalResponse)
      (hans : jsTrim ans ≠ "")
      (hcur : u.hasCurrent = true) :
      Step u (handleSubmitAnswer u ans (.ok r))
  | finalize (u : UIState) (r : FeedbackResponse) (now : Nat)
      (hst : u.interview.status = .in_progress)
      (hcur : u.hasCurrent = false)
      (hlen : u.interview.total_questions ≤ u.qaHistory.length) :
      Step u (generateFinalFeedback u (.ok r) now)
  | resume (u : UIState)
      (hst : u.interview.status ≠ .completed) :
      Step u (resumeUI u)

/-- States reachable by the workflow from a freshly created interview. -/
inductive Reachable : UIState → Prop where
  | init (uid role diff itype : String) (total created : Nat) :
      Reachable (initUI uid role diff itype total created)
  | step {u v : UIState} : Reachable u → Step u v → Reachable v

/-- The aggregate completion fields are all set. -/
def aggregatesSet (iv : Interview) : Prop :=
  iv.overall_score.isSome ∧ iv.strengths.isSome ∧
    iv.improvements.isSome ∧ iv.completed_at.isSome

/-- The aggregate completion fields are all null. -/
def aggregatesNull (iv : Interview) : Prop :=
  iv.overall_score = none ∧ iv.strengths = none ∧
    iv.improvements = none ∧ iv.completed_at = none

/-- The workflow invariant: contiguous 1-based question orders; never more
questions than the budget; only the last question may lack an answer; a
current question is displayed exactly when the last question is
unanswered; the in-memory history counts the answered questions; the
interview is completed exactly when the answered count equals the budget
and the aggregates are set; aggregates are null while in progress; the
workflow never cancels. -/
def Inv (u : UIState) : Prop :=
  u.questions.map (·.question_order) = List.range' 1 u.questions.length ∧
  u.questions.length ≤ u.interview.total_questions ∧
  (∀ q ∈ u.questions.dropLast, q.answer.isSome = true) ∧
  (u.hasCurrent = true ↔ ∃ l, u.questions.getLast? = some l ∧ l.answer = none) ∧
  u.qaHistory.length = answeredCount u.questions ∧
  (u.interview.status = .completed ↔
    (answeredCount u.questions = u.interview.total_questions ∧
      aggregatesSet u.interview)) ∧
  (u.interview.status = .in_progress → aggregatesNull u.interview) ∧
  u.interview.status ≠ .cancelled

/-! ### Setup flow (`src/pages/Setup.tsx`) -/

/-- The preset role buttons of `Setup.tsx`. -/
def jobRoles : List String :=
  ["Software Engineer", "Product Manager", "Data Scientist", "UX Designer",
   "DevOps Engineer", "Marketing Manager", "Sales Representative",
   "Business Analyst"]

/-- The question-count buttons of `Setup.tsx`. -/
def questionCounts : List Nat := [5, 10, 15]

/-- Component state of `Setup.tsx`. -/
structure SetupState where
  jobRole : String
  customRole : String
  interviewType : String
  difficulty : String
  questionCount : Nat
deriving DecidableEq, Repr

/-- The `useState` initial values of `Setup.tsx`. -/
def initialSetup : SetupState :=
  { jobRole := ""
    customRole := ""
    interviewType := "behavioral"
    difficulty := "mid"
    questionCount := 5 }

/-- The state setters the `Setup.tsx` UI can fire: role buttons (a preset
or `custom`), free text in the custom-role input, the three type buttons,
the three difficulty buttons, and the question-count buttons drawn from
`questionCounts`. -/
inductive SetupStep : SetupState → SetupState → Prop where
  | setRole (s : SetupState) (r : String)
      (hr : r ∈ jobRoles ∨ r = "custom") :
      SetupStep s { s with jobRole := r }
  | setCustomRole (s : SetupState) (r : String) :
      SetupStep s { s with customRole := r }
  | setType (s : SetupState) (t : String)
      (ht : t ∈ ["technical", "behavioral", "case_study"]) :
      SetupStep s { s with interviewType := t }
  | setDifficulty (s : SetupState) (d : String)
      (hd : d ∈ ["junior", "mid", "senior"]) :
      SetupStep s { s with difficulty := d }
  | setCount (s : SetupState) (c : Nat)
      (hc : c ∈ questionCounts) :
      SetupStep s { s with questionCount := c }

/-- Setup states reachable from the initial component state. -/
inductive SetupReachable : SetupState → Prop where
  | init : SetupReachable initialSetup
  | step {s t : SetupState} : SetupReachable s → SetupStep s t → SetupReachable t

/-- The role `handleStartInterview` will persist: the custom text when the
`custom` button is selected, the selected preset otherwise. -/
def finalRole (s : SetupState) : String :=
  if s.jobRole = "custom" then s.customRole else s.jobRole

/-- The row `handleStartInterview` inserts into `interviews`. -/
structure InterviewInsert where
  user_id : String
  job_role : String
  difficulty : String
  interview_type : String
  total_questions : Nat
  status : IStatus
deriving DecidableEq, Repr

/-- Function `handleStartInterview` of `Setup.tsx`: a whitespace-only role is
rejected with a toast before any persistence call (`none`); otherwise the
interview row is inserted with status `in_progress`. -/
def handleStartInterview (s : SetupState) (uid : String) :
    Option InterviewInsert :=
  if jsTrim (finalRole s) = "" then none
  else
    some
      { user_id := uid
        job_role := finalRole s
        difficulty := s.difficulty
        interview_type := s.interviewType
        total_questions := s.questionCount
        status := .in_progress }

/-! ### Generation proxy (the `interview-ai` edge function) -/

/-- What the proxy observes of the upstream AI gateway call: the HTTP
status, and the `data.choices?.[0]?.message?.content` of the decoded body
(`none` when absent). -/
structure GatewayResponse where
  status : Nat
  content : Option String
deriving DecidableEq, Repr

/-- The check `response.ok` of `fetch`: status in the 2xx range. -/
def respOk (status : Nat) : Bool := 200 ≤ status && status < 300

/-- What the proxy returns to its caller. -/
structure ProxyResult where
  status : Nat
  error : Option String
  result : Option String
deriving DecidableEq, Repr

/-- The response dispatch of the edge function: a non-ok gateway status of
429 or 402 is mapped to a like-status error response with a dedicated
message; any other non-ok status throws `AI gateway error: <status>`,
caught by the outer handler as a 500; an ok response without content
throws `No content in AI response`, likewise a 500; otherwise the content
is returned as `{ result }` with the default 200 status. -/
def handleGateway (r : GatewayResponse) : ProxyResult :=
  if respOk r.status = false then
    if r.status = 429 then
      { status := 429
        error := some "Rate limit exceeded. Please try again in a moment."
        result := none }
    else if r.status = 402 then
      { status := 402
        error := some "AI credits exhausted. Please add more credits."
        result := none }
    else
      { status := 500
        error := some ("AI gateway error: " ++ toString r.status)
        result := none }
  else
    match r.content with
    | none =>
        { status := 500, error := some "No content in AI response", result := none }
    | some c => { status := 200, error := none, result := some c }

/-! ### Concrete sample data -/

/-- A freshly created sample interview session. -/
def sample0 : UIState :=
  initUI "user-1" "Software Engineer" "mid" "behavioral" 5 0

/-- The sample session after the first question was generated. -/
def sample1 : UIState :=
  generateNextQuestion sample0 (.ok "Describe a project you led.")

/-- The sample session after the first answer was submitted against a
well-formed evaluation payload. -/
def sample2 : UIState :=
  handleSubmitAnswer sample1 "I led a team of five engineers."
    (.ok { raw := "score 8", parse := some { score := some 8, feedback := some "Good." } })

/-- The setup component after selecting a preset role. -/
def setupSample : SetupState := { initialSetup with jobRole := "Software Engineer" }

/-- A sample answered question row. -/
def qRow1 : QuestionRow :=
  { question_text := "Q1", question_order := 1
    answer := some { answer_text := "A1", ai_feedback := "Good.", score := 8 } }

/-- A sample unanswered question row. -/
def qRow2 : QuestionRow :=
  { question_text := "Q2", question_order := 2, answer := none }

/-- A sample three-turn history with scores 8, 6 and 7. -/
def hist867 : List QA :=
  [{ question := "Q1", answer := "A1", feedback := none, score := some 8 },
   { question := "Q2", answer := "A2", feedback := none, score := some 6 },
   { question := "Q3", answer := "A3", feedback := none, score := some 7 }]

/-! ### Helper lemmas -/

theorem range'_one_concat (n : Nat) :
    List.range' 1 (n + 1) = List.range' 1 n ++ [n + 1] := by
  rw [List.range'_concat]
  simp [Nat.add_comm]

theorem eq_dropLast_concat {α : Type} :
    ∀ {qs : List α} {l : α}, qs.getLast? = some l → qs = qs.dropLast ++ [l]
  | [], _, h => by simp at h
  | [a], l, h => by
      simp only [List.getLast?_singleton, Option.some.injEq] at h
      simp [h]
  | a :: b :: t, l, h => by
      have h' : (b :: t).getLast? = some l := by
        simpa [List.getLast?_cons_cons] using h
      have ih := eq_dropLast_concat h'
      simpa using ih

theorem answerLast_eq :
    ∀ {qs : List QuestionRow} {l : QuestionRow} (a : AnswerRow),
      qs.getLast? = some l →
      answerLast qs a = qs.dropLast ++ [{ l with answer := some a }]
  | [], _, a, h => by simp at h
  | [q], l, a, h => by
      simp only [List.getLast?_singleton, Option.some.injEq] at h
      simp [answerLast, h]
  | q :: q' :: t, l, a, h => by
      have h' : (q' :: t).getLast? = some l := by
        simpa [List.getLast?_cons_cons] using h
      have ih := answerLast_eq a h'
      simpa [answerLast] using ih

theorem answeredCount_append (xs ys : List QuestionRow) :
    answeredCount (xs ++ ys) = answeredCount xs + answeredCount ys := by
  simp [answeredCount, List.filter_append]

theorem answeredCount_le (qs : List QuestionRow) :
    answeredCount qs ≤ qs.length :=
  List.length_filter_le _ _

theorem answeredCount_eq_length_iff (qs : List QuestionRow) :
    answeredCount qs = qs.length ↔ ∀ q ∈ qs, q.answer.isSome = true := by
  constructor
  · intro h q hq
    have heq := (List.filter_sublist qs).eq_of_length h
    exact List.filter_eq_self.mp heq q hq
  · intro h
    simp [answeredCount, List.filter_eq_self.mpr h]

theorem all_answered {qs : List QuestionRow}
    (h3 : ∀ q ∈ qs.dropLast, q.answer.isSome = true)
    (hlast : ∀ l, qs.getLast? = some l → l.answer ≠ none) :
    ∀ q ∈ qs, q.answer.isSome = true := by
  cases hq : qs.getLast? with
  | none =>
      rw [List.getLast?_eq_none_iff] at hq
      simp [hq]
  | some l =>
      have hdecomp := eq_dropLast_concat hq
      intro q hmem
      rw [hdecomp] at hmem
      rcases List.mem_append.mp hmem with hm | hm
      · exact h3 q hm
      · have : q = l := by simpa using hm
        subst this
        exact Option.isSome_iff_ne_none.mpr (hlast q hq)

theorem answeredCount_answerLast {qs : List QuestionRow} {l : QuestionRow}
    (a : AnswerRow) (hl : qs.getLast? = some l) (hnone : l.answer = none) :
    answeredCount (answerLast qs a) = answeredCount qs + 1 := by
  have hdecomp := eq_dropLast_concat hl
  have hAL := answerLast_eq a hl
  have e1 : answeredCount (qs.dropLast ++ [{ l with answer := some a }]) =
      answeredCount qs.dropLast + 1 := by
    simp [answeredCount_append, answeredCount]
  have e2 : answeredCount qs = answeredCount qs.dropLast := by
    conv_lhs => rw [hdecomp]
    simp [answeredCount_append, answeredCount, hnone]
  rw [hAL, e1, e2]

theorem answerLast_map_order {qs : List QuestionRow} (a : AnswerRow) :
    (answerLast qs a).map (·.question_order) = qs.map (·.question_order) := by
  cases hq : qs.getLast? with
  | none =>
      rw [List.getLast?_eq_none_iff] at hq
      simp [hq, answerLast]
  | some l =>
      rw [answerLast_eq a hq]
      conv_rhs => rw [eq_dropLast_concat hq]
      simp

theorem answerLast_length {qs : List QuestionRow} (a : AnswerRow) :
    (answerLast qs a).length = qs.length := by
  cases hq : qs.getLast? with
  | none =>
      rw [List.getLast?_eq_none_iff] at hq
      simp [hq, answerLast]
  | some l =>
      rw [answerLast_eq a hq]
      conv_rhs => rw [eq_dropLast_concat hq]
      simp

theorem answerLast_dropLast {qs : List QuestionRow} (a : AnswerRow) :
    (answerLast qs a).dropLast = qs.dropLast := by
  cases hq : qs.getLast? with
  | none =>
      rw [List.getLast?_eq_none_iff] at hq
      simp [hq, answerLast]
  | some l =>
      rw [answerLast_eq a hq]
      simp

theorem answerLast_getLast {qs : List QuestionRow} {l : QuestionRow}
    (a : AnswerRow) (hl : qs.getLast? = some l) :
    (answerLast qs a).getLast? = some { l with answer := some a } := by
  rw [answerLast_eq a hl]
  simp

/-! ### The workflow invariant -/

theorem inv_init (uid role diff itype : String) (total created : Nat) :
    Inv (initUI uid role diff itype total created) := by
  refine ⟨?_, ?_, ?_, ?_, ?_, ?_, ?_, ?_⟩ <;>
    simp [Inv, initUI, answeredCount, aggregatesSet, aggregatesNull]

theorem inv_preserved {u v : UIState} (hInv : Inv u) (hs : Step u v) : Inv v := by
  obtain ⟨h1, h2, h3, h4, h5, h6, h7, h8⟩ := hInv
  cases hs with
  | genQ text hst hcur hlen =>
      have hlastans : ∀ l, u.questions.getLast? = some l → l.answer ≠ none := by
        intro l hl hnone
        have : u.hasCurrent = true := h4.mpr ⟨l, hl, hnone⟩
        rw [hcur] at this
        exact Bool.false_ne_true this
      have hall := all_answered h3 hlastans
      have hcount : answeredCount u.questions = u.questions.length :=
        (answeredCount_eq_length_iff _).mpr hall
      have hlen5 : u.qaHistory.length = u.questions.length := h5.trans hcount
      have hagg := h7 hst
      refine ⟨?_, ?_, ?_, ?_, ?_, ?_, ?_, ?_⟩
      · simp [generateNextQuestion, h1, hlen5, range'_one_concat]
      · simp only [generateNextQuestion, List.length_append, List.length_singleton]
        omega
      · simp only [generateNextQuestion, List.dropLast_concat]
        exact hall
      · simp [generateNextQuestion, List.getLast?_concat]
      · simp [generateNextQuestion, answeredCount_append, answeredCount, h5]
      · simp [generateNextQuestion, hst, aggregatesSet, hagg.1]
      · simpa [generateNextQuestion] using h7
      · simpa [generateNextQuestion] using h8
  | submit ans r hans hcur =>
      obtain ⟨l, hl, hlnone⟩ := h4.mp hcur
      have hcount' := answeredCount_answerLast
        (⟨ans, (evalParse r).1, (evalParse r).2⟩ : AnswerRow) hl hlnone
      have hlt : answeredCount u.questions < u.questions.length := by
        have hle := answeredCount_le
          (answerLast u.questions ⟨ans, (evalParse r).1, (evalParse r).2⟩)
        rw [answerLast_length] at hle
        omega
      have hip : u.interview.status = .in_progress := by
        cases hstat : u.interview.status with
        | in_progress => rfl
        | completed =>
            obtain ⟨hcnt, _⟩ := h6.mp hstat
            omega
        | cancelled => exact absurd hstat h8
      have hagg := h7 hip
      refine ⟨?_, ?_, ?_, ?_, ?_, ?_, ?_, ?_⟩
      · simp [handleSubmitAnswer, hans, answerLast_map_order, answerLast_length, h1]
      · simp [handleSubmitAnswer, hans, answerLast_length, h2]
      · simp [handleSubmitAnswer, hans, answerLast_dropLast]
        exact h3
      · simp [handleSubmitAnswer, hans, answerLast_getLast _ hl]
      · simp [handleSubmitAnswer, hans, hcount', h5]
      · simp [handleSubmitAnswer, hans, hip, aggregatesSet, hagg.1, hcount']
      · simp only [handleSubmitAnswer, hans]
        simpa using h7
      · simpa [handleSubmitAnswer, hans] using h8
  | finalize r now hst hcur hlen =>
      have hcnt : answeredCount u.questions = u.interview.total_questions := by
        have e2 := answeredCount_le u.questions
        omega
      refine ⟨?_, ?_, ?_, ?_, ?_, ?_, ?_, ?_⟩
      · simpa [generateFinalFeedback, finalizeUpdate] using h1
      · simpa [generateFinalFeedback, finalizeUpdate] using h2
      · simpa [generateFinalFeedback, finalizeUpdate] using h3
      · simpa [generateFinalFeedback, finalizeUpdate] using h4
      · simpa [generateFinalFeedback, finalizeUpdate] using h5
      · simp [generateFinalFeedback, finalizeUpdate, aggregatesSet, hcnt]
      · simp [generateFinalFeedback, finalizeUpdate]
      · simp [generateFinalFeedback, finalizeUpdate]
  | resume hst =>
      cases hq : u.questions.getLast? with
      | none =>
          have hnil : u.questions = [] := List.getLast?_eq_none_iff.mp hq
          refine ⟨?_, ?_, ?_, ?_, ?_, ?_, ?_, ?_⟩ <;>
            simp_all [resumeUI, answeredCount]
      | some l =>
          have hdecomp := eq_dropLast_concat hq
          cases hln : l.answer with
          | none =>
              have hdropall : answeredCount u.questions.dropLast =
                  u.questions.dropLast.length :=
                (answeredCount_eq_length_iff _).mpr h3
              have hcnt : answeredCount u.questions = u.questions.length - 1 := by
                have e : answeredCount u.questions =
                    answeredCount u.questions.dropLast := by
                  conv_lhs => rw [hdecomp]
                  simp [answeredCount_append, answeredCount, hln]
                rw [e, hdropall, List.length_dropLast]
              refine ⟨?_, ?_, ?_, ?_, ?_, ?_, ?_, ?_⟩
              · simpa [resumeUI, hq, hln] using h1
              · simpa [resumeUI, hq, hln] using h2
              · simpa [resumeUI, hq, hln] using h3
              · simp [resumeUI, hq, hln]
              · simp [resumeUI, hq, hln, hcnt]
              · simpa [resumeUI, hq, hln] using h6
              · simpa [resumeUI, hq, hln] using h7
              · simpa [resumeUI, hq, hln] using h8
          | some a =>
              have hall : ∀ q ∈ u.questions, q.answer.isSome = true := by
                apply all_answered h3
                intro l' hl' hn
                rw [hq] at hl'
                cases hl'
                rw [hln] at hn
                exact Option.some_ne_none _ hn
              have hcnt : answeredCount u.questions = u.questions.length :=
                (answeredCount_eq_length_iff _).mpr hall
              refine ⟨?_, ?_, ?_, ?_, ?_, ?_, ?_, ?_⟩
              · simpa [resumeUI, hq, hln] using h1
              · simpa [resumeUI, hq, hln] using h2
              · simpa [resumeUI, hq, hln] using h3
              · simp [resumeUI, hq, hln]
              · simp [resumeUI, hq, hln, hcnt]
              · simpa [resumeUI, hq, hln] using h6
              · simpa [resumeUI, hq, hln] using h7
              · simpa [resumeUI, hq, hln] using h8

/-- Every reachable workflow state satisfies the invariant. -/
theorem reachable_inv {u : UIState} (h : Reachable u) : Inv u := by
  induction h with
  | init uid role diff itype total created => exact inv_init uid role diff itype total created
  | step _ hs ih => exact inv_preserved ih hs

/-! ### Claim theorems -/

/-- C2: in every state reachable by the workflow operations (create,
generate question, submit answer, finalize), the number of answered
questions is at most `total_questions`, and the status is `completed` if
and only if the answered-question count equals `total_questions` and the
aggregate fields (`overall_score`, `strengths`, `improvements`,
`completed_at`) are non-null. -/
theorem c2_answered_count_and_completion {u : UIState} (h : Reachable u) :
    answeredCount u.questions ≤ u.interview.total_questions ∧
    (u.interview.status = .completed ↔
      (answeredCount u.questions = u.interview.total_questions ∧
        aggregatesSet u.interview)) := by
  obtain ⟨-, h2, -, -, -, h6, -, -⟩ := reachable_inv h
  exact ⟨le_trans (answeredCount_le _) h2, h6⟩

/-- Witness for C2 at a concrete reachable state. -/
theorem c2_answered_count_and_completion_witness :
    Reachable sample1 ∧
    (answeredCount sample1.questions ≤ sample1.interview.total_questions ∧
      (sample1.interview.status = .completed ↔
        (answeredCount sample1.questions = sample1.interview.total_questions ∧
          aggregatesSet sample1.interview))) :=
  have hr : Reachable sample1 :=
    Reachable.step
      (Reachable.init "user-1" "Software Engineer" "mid" "behavioral" 5 0)
      (Step.genQ sample0 "Describe a project you led." rfl rfl (by decide))
  ⟨hr, c2_answered_count_and_completion hr⟩

/-- C5: the `question_order` indices of the persisted questions of a
reachable state are exactly the contiguous sequence `1..N` with no gaps
and no duplicates; a failed generate-question writes nothing (so a retry
starts from the same state), and a successful one persists order
`history.length + 1` where the in-memory history length equals the count
of fully answered questions, keeping the sequence contiguous. -/
theorem c5_order_indices_contiguous {u : UIState} (h : Reachable u) :
    u.questions.map (·.question_order) = List.range' 1 u.questions.length ∧
    (u.questions.map (·.question_order)).Nodup ∧
    generateNextQuestion u (.error ()) = u ∧
    u.qaHistory.length = answeredCount u.questions ∧
    (u.hasCurrent = false → ∀ text,
      (generateNextQuestion u (.ok text)).questions.map (·.question_order) =
        List.range' 1 (u.questions.length + 1)) := by
  obtain ⟨h1, h2, h3, h4, h5, h6, h7, h8⟩ := reachable_inv h
  refine ⟨h1, ?_, rfl, h5, ?_⟩
  · rw [h1]
    simp [List.nodup_range']
  · intro hcur text
    have hlastans : ∀ l, u.questions.getLast? = some l → l.answer ≠ none := by
      intro l hl hnone
      have hcc := h4.mpr ⟨l, hl, hnone⟩
      rw [hcur] at hcc
      exact Bool.false_ne_true hcc
    have hall := all_answered h3 hlastans
    have hcount : answeredCount u.questions = u.questions.length :=
      (answeredCount_eq_length_iff _).mpr hall
    have hlen5 : u.qaHistory.length = u.questions.length := h5.trans hcount
    simp [generateNextQuestion, h1, hlen5, range'_one_concat]

/-- Witness for C5 at a concrete two-step reachable state. -/
theorem c5_order_indices_contiguous_witness :
    Reachable sample2 ∧
    (sample2.questions.map (·.question_order) =
        List.range' 1 sample2.questions.length ∧
      (sample2.questions.map (·.question_order)).Nodup ∧
      generateNextQuestion sample2 (.error ()) = sample2 ∧
      sample2.qaHistory.length = answeredCount sample2.questions ∧
      (sample2.hasCurrent = false → ∀ text,
        (generateNextQuestion sample2 (.ok text)).questions.map (·.question_order) =
          List.range' 1 (sample2.questions.length + 1))) :=
  have hr : Reachable sample2 :=
    Reachable.step
      (Reachable.step
        (Reachable.init "user-1" "Software Engineer" "mid" "behavioral" 5 0)
        (Step.genQ sample0 "Describe a project you led." rfl rfl (by decide)))
      (Step.submit sample1 "I led a team of five engineers."
        { raw := "score 8", parse := some { score := some 8, feedback := some "Good." } }
        (by decide) rfl)
  ⟨hr, c5_order_indices_contiguous hr⟩

/-- C7: a Generation Service failure (the invoke returns an error) leaves
the whole session state — persisted rows and in-memory history alike —
unchanged, for submit-answer, finalize and generate-question, so the same
step can be retried with the same inputs. -/
theorem c7_generation_failure_is_noop (u : UIState) (ans : String)
    (e : Unit) (now : Nat) :
    handleSubmitAnswer u ans (.error e) = u ∧
    generateFinalFeedback u (.error e) now = u ∧
    generateNextQuestion u (.error e) = u := by
  refine ⟨?_, rfl, rfl⟩
  unfold handleSubmitAnswer
  split <;> rfl

/-- C8: the generation proxy maps a 429 gateway status to a 429 rate-limit
error, a 402 status to a 402 exhausted-credits error, and every other
non-ok response or missing content to a generic 500 error. -/
theorem c8_proxy_error_classes (r : GatewayResponse) :
    (r.status = 429 → handleGateway r =
      { status := 429
        error := some "Rate limit exceeded. Please try again in a moment."
        result := none }) ∧
    (r.status = 402 → handleGateway r =
      { status := 402
        error := some "AI credits exhausted. Please add more credits."
        result := none }) ∧
    (respOk r.status = false → r.status ≠ 429 → r.status ≠ 402 →
      handleGateway r =
        { status := 500
          error := some ("AI gateway error: " ++ toString r.status)
          result := none }) ∧
    (respOk r.status = true → r.content = none →
      handleGateway r =
        { status := 500
          error := some "No content in AI response"
          result := none }) := by
  refine ⟨?_, ?_, ?_, ?_⟩
  · intro h
    simp [handleGateway, respOk, h]
  · intro h
    simp [handleGateway, respOk, h]
  · intro hok h1 h2
    simp [handleGateway, hok, h1, h2]
  · intro hok hc
    simp [handleGateway, hok, hc]

/-- Witness for C8 at the four concrete gateway statuses. -/
theorem c8_proxy_error_classes_witness :
    handleGateway { status := 429, content := none } =
      { status := 429
        error := some "Rate limit exceeded. Please try again in a moment."
        result := none } ∧
    handleGateway { status := 402, content := none } =
      { status := 402
        error := some "AI credits exhausted. Please add more credits."
        result := none } ∧
    handleGateway { status := 503, content := none } =
      { status := 500
        error := some ("AI gateway error: " ++ toString 503)
        result := none } ∧
    handleGateway { status := 200, content := none } =
      { status := 500
        error := some "No content in AI response"
        result := none } :=
  ⟨(c8_proxy_error_classes _).1 rfl,
   (c8_proxy_error_classes _).2.1 rfl,
   (c8_proxy_error_classes _).2.2.1 (by decide) (by decide) (by decide),
   (c8_proxy_error_classes _).2.2.2 (by decide) rfl⟩

/-- C9: on a response that does parse, the score field is kept only when
truthy — an explicit 0, `null`, or a missing score is replaced by the
default 5 — the feedback falls back to the raw text when missing or
empty, and a parseable `generate_feedback` payload with `overallScore` 0
or missing persists 5, not the mean of the per-turn scores. -/
theorem c9_truthy_defaults (raw : String) (sc : ℚ) (fb : Option String)
    (stl iml : Option (List String)) (hist : List QA) :
    (evalParse { raw := raw, parse := some { score := some 0, feedback := fb } }).2 = 5 ∧
    (evalParse { raw := raw, parse := some { score := none, feedback := fb } }).2 = 5 ∧
    (sc ≠ 0 →
      (evalParse { raw := raw, parse := some { score := some sc, feedback := fb } }).2 = sc) ∧
    (evalParse { raw := raw, parse := some { score := some sc, feedback := none } }).1 = raw ∧
    (evalParse { raw := raw, parse := some { score := some sc, feedback := some "" } }).1 = raw ∧
    (feedbackParse
      { raw := raw
        parse := some { overallScore := some 0, strengths := stl, improvements := iml } }
      hist).1 = 5 ∧
    (feedbackParse
      { raw := raw
        parse := some { overallScore := none, strengths := stl, improvements := iml } }
      hist).1 = 5 := by
  refine ⟨?_, ?_, ?_, ?_, ?_, ?_, ?_⟩
  · simp [evalParse, jsOrQ]
  · simp [evalParse, jsOrQ]
  · intro h
    simp [evalParse, jsOrQ, h]
  · simp [evalParse, jsOrStr]
  · simp [evalParse, jsOrStr]
  · simp [feedbackParse, jsOrQ]
  · simp [feedbackParse, jsOrQ]

/-- Witness for C9, discharging the truthy-score hypothesis at 9. -/
theorem c9_truthy_defaults_witness :
    ((9 : ℚ) ≠ 0 ∧
      (evalParse { raw := "oops", parse := some { score := some 9, feedback := none } }).2 = 9) ∧
    (evalParse { raw := "oops", parse := some { score := some 0, feedback := none } }).2 = 5 ∧
    (feedbackParse
      { raw := "oops"
        parse := some { overallScore := some 0, strengths := some [], improvements := some [] } }
      hist867).1 = 5 :=
  ⟨⟨by norm_num,
    (c9_truthy_defaults "oops" 9 none none none hist867).2.2.1 (by norm_num)⟩,
   (c9_truthy_defaults "oops" 9 none none none hist867).1,
   (c9_truthy_defaults "oops" 9 (some "") (some []) (some []) hist867).2.2.2.2.2.1⟩

/-- C1: resume is a pure function of the persisted rows: with all `N`
persisted questions answered and `N < total_questions` the session goes
to awaiting-question for question `N + 1` (the generate call is made with
history of length `N`, so the new question gets order `N + 1`); with the
answered count equal to `total_questions` it goes to evaluating; and with
the last question unanswered that question is surfaced for answering with
the history being exactly the prior fully-answered questions. -/
theorem c1_resume_pure_function (iv : Interview) (qs : List QuestionRow)
    (hip : iv.status = .in_progress) :
    ((∀ q ∈ qs, q.answer.isSome = true) → qs.length < iv.total_questions →
      fetchResumeAction iv qs = .awaitQuestion (qs.length + 1) (qs.map toQA)) ∧
    ((∀ q ∈ qs, q.answer.isSome = true) → qs.length = iv.total_questions →
      0 < iv.total_questions →
      fetchResumeAction iv qs = .evaluating (qs.map toQA)) ∧
    (∀ pri last, qs = pri ++ [last] → last.answer = none →
      (∀ q ∈ pri, q.answer.isSome = true) →
      fetchResumeAction iv qs = .awaitAnswer last.question_text (pri.map toQA)) := by
  refine ⟨?_, ?_, ?_⟩
  · intro hall hlen
    cases hq : qs.getLast? with
    | none =>
        have hnil : qs = [] := List.getLast?_eq_none_iff.mp hq
        subst hnil
        simp [fetchResumeAction, hip]
    | some l =>
        have hmem : l ∈ qs := by
          rw [eq_dropLast_concat hq]
          simp
        obtain ⟨a, ha⟩ := Option.isSome_iff_exists.mp (hall l hmem)
        simp [fetchResumeAction, hip, hq, ha, hlen]
  · intro hall hlen htot
    cases hq : qs.getLast? with
    | none =>
        have hnil : qs = [] := List.getLast?_eq_none_iff.mp hq
        subst hnil
        simp at hlen
        omega
    | some l =>
        have hmem : l ∈ qs := by
          rw [eq_dropLast_concat hq]
          simp
        obtain ⟨a, ha⟩ := Option.isSome_iff_exists.mp (hall l hmem)
        simp [fetchResumeAction, hip, hq, ha, hlen]
  · intro pri last hdec hnone hpri
    subst hdec
    simp [fetchResumeAction, hip, List.getLast?_concat, hnone, List.map_append,
      List.dropLast_concat]

/-- Witness for C1 at two concrete row sets. -/
theorem c1_resume_pure_function_witness :
    fetchResumeAction sample0.interview [qRow1] =
      .awaitQuestion 2 ([qRow1].map toQA) ∧
    fetchResumeAction sample0.interview [qRow1, qRow2] =
      .awaitAnswer "Q2" ([qRow1].map toQA) :=
  ⟨(c1_resume_pure_function sample0.interview [qRow1] rfl).1
      (by decide) (by decide),
   (c1_resume_pure_function sample0.interview [qRow1, qRow2] rfl).2.2
      [qRow1] qRow2 rfl rfl (by decide)⟩

/-- C3: when the `evaluate_answer` response text does not parse,
submit-answer persists an answer row whose score is exactly 5 and whose
feedback is the entire raw response text verbatim, and the submission
still succeeds — the answer is persisted and the history grows. -/
theorem c3_malformed_eval_fallback (u : UIState) (ans raw : String)
    (hans : jsTrim ans ≠ "") :
    evalParse { raw := raw, parse := none } = (raw, 5) ∧
    (handleSubmitAnswer u ans (.ok { raw := raw, parse := none })).questions =
      answerLast u.questions { answer_text := ans, ai_feedback := raw, score := 5 } ∧
    (handleSubmitAnswer u ans (.ok { raw := raw, parse := none })).qaHistory =
      u.qaHistory ++
        [{ question := jsOrStr (u.questions.getLast?.map (·.question_text)) ""
           answer := ans
           feedback := some raw
           score := some 5 }] := by
  refine ⟨rfl, ?_, ?_⟩ <;> simp [handleSubmitAnswer, hans, evalParse]

/-- Witness for C3 at a concrete submission. -/
theorem c3_malformed_eval_fallback_witness :
    evalParse { raw := "Nice answer.", parse := none } = ("Nice answer.", 5) ∧
    (handleSubmitAnswer sample1 "I led a team of five engineers."
        (.ok { raw := "Nice answer.", parse := none })).questions =
      answerLast sample1.questions
        { answer_text := "I led a team of five engineers."
          ai_feedback := "Nice answer.", score := 5 } ∧
    (handleSubmitAnswer sample1 "I led a team of five engineers."
        (.ok { raw := "Nice answer.", parse := none })).qaHistory =
      sample1.qaHistory ++
        [{ question := jsOrStr (sample1.questions.getLast?.map (·.question_text)) ""
           answer := "I led a team of five engineers."
           feedback := some "Nice answer."
           score := some 5 }] :=
  c3_malformed_eval_fallback sample1 "I led a team of five engineers."
    "Nice answer." (by decide)

/-- C4: when the `generate_feedback` response text does not parse,
finalize computes the overall score as the arithmetic mean of the
per-turn scores rounded to one decimal place and leaves strengths and
improvements empty; in particular a history with scores `[8, 6, 7]`
yields overall score 7.0. -/
theorem c4_malformed_feedback_mean (raw : String) (hist : List QA)
    (hne : hist ≠ []) :
    feedbackParse { raw := raw, parse := none } hist =
      (round1 (avgScore hist), [], []) ∧
    (hist.map (·.score) = [some 8, some 6, some 7] →
      feedbackParse { raw := raw, parse := none } hist = (7, [], [])) := by
  refine ⟨rfl, ?_⟩
  intro hmap
  cases hist with
  | nil => simp at hmap
  | cons a t =>
    cases t with
    | nil => simp at hmap
    | cons b t2 =>
      cases t2 with
      | nil => simp at hmap
      | cons c t3 =>
        cases t3 with
        | cons d t4 => simp at hmap
        | nil =>
            simp only [List.map_cons, List.map_nil, List.cons.injEq, and_true] at hmap
            obtain ⟨ha, hb, hc⟩ := hmap
            simp [feedbackParse, avgScore, jsOrQ, ha, hb, hc]
            norm_num [round1]

/-- Witness for C4 at the concrete `[8, 6, 7]` history. -/
theorem c4_malformed_feedback_mean_witness :
    feedbackParse { raw := "oops", parse := none } hist867 =
      (round1 (avgScore hist867), [], []) ∧
    feedbackParse { raw := "oops", parse := none } hist867 = (7, [], []) :=
  ⟨(c4_malformed_feedback_mean "oops" hist867 (by decide)).1,
   (c4_malformed_feedback_mean "oops" hist867 (by decide)).2 rfl⟩

/-- C6: finalize writes the completion data in a single update that sets
exactly status, `overall_score`, `strengths`, `improvements` and
`completed_at`, leaving every other interview field unchanged; before the
transition (any reachable in-progress state) the aggregate fields are all
null; and from a completed state no workflow step applies, so the five
fields are set together exactly once. -/
theorem c6_finalize_atomic_frame {u : UIState} (h : Reachable u) :
    (u.interview.status = .in_progress → aggregatesNull u.interview) ∧
    (∀ sc st im now,
      (finalizeUpdate u.interview sc st im now).status = .completed ∧
      (finalizeUpdate u.interview sc st im now).overall_score = some sc ∧
      (finalizeUpdate u.interview sc st im now).strengths = some st ∧
      (finalizeUpdate u.interview sc st im now).improvements = some im ∧
      (finalizeUpdate u.interview sc st im now).completed_at = some now ∧
      (finalizeUpdate u.interview sc st im now).job_role = u.interview.job_role ∧
      (finalizeUpdate u.interview sc st im now).difficulty = u.interview.difficulty ∧
      (finalizeUpdate u.interview sc st im now).interview_type =
        u.interview.interview_type ∧
      (finalizeUpdate u.interview sc st im now).total_questions =
        u.interview.total_questions ∧
      (finalizeUpdate u.interview sc st im now).user_id = u.interview.user_id ∧
      (finalizeUpdate u.interview sc st im now).created_at = u.interview.created_at) ∧
    (∀ r now, (generateFinalFeedback u (.ok r) now).interview =
      finalizeUpdate u.interview (feedbackParse r u.qaHistory).1
        (feedbackParse r u.qaHistory).2.1 (feedbackParse r u.qaHistory).2.2 now) ∧
    (u.interview.status = .completed → ∀ v, ¬ Step u v) := by
  obtain ⟨h1, h2, h3, h4, h5, h6, h7, h8⟩ := reachable_inv h
  refine ⟨h7, ?_, ?_, ?_⟩
  · intro sc st im now
    refine ⟨rfl, rfl, rfl, rfl, rfl, rfl, rfl, rfl, rfl, rfl, rfl⟩
  · intro r now
    rfl
  · intro hc v hs
    have hcnt := (h6.mp hc).1
    have hlen := answeredCount_le u.questions
    have hallen : answeredCount u.questions = u.questions.length := by omega
    have hall := (answeredCount_eq_length_iff _).mp hallen
    cases hs with
    | genQ text hst hcur hlen2 =>
        rw [hc] at hst
        exact absurd hst (by decide)
    | submit ans r hans hcur =>
        obtain ⟨l, hl, hln⟩ := h4.mp hcur
        have hmem : l ∈ u.questions := by
          rw [eq_dropLast_concat hl]
          simp
        have hsm := hall l hmem
        rw [hln] at hsm
        simp at hsm
    | finalize r now hst hcur hlen2 =>
        rw [hc] at hst
        exact absurd hst (by decide)
    | resume hst => exact hst hc

/-- Witness for C6 at a concrete reachable in-progress state. -/
theorem c6_finalize_atomic_frame_witness :
    aggregatesNull sample1.interview ∧
    (finalizeUpdate sample1.interview 7 ["clear"] ["metrics"] 42).status =
      .completed ∧
    (finalizeUpdate sample1.interview 7 ["clear"] ["metrics"] 42).job_role =
      sample1.interview.job_role :=
  have hr : Reachable sample1 :=
    Reachable.step
      (Reachable.init "user-1" "Software Engineer" "mid" "behavioral" 5 0)
      (Step.genQ sample0 "Describe a project you led." rfl rfl (by decide))
  ⟨(c6_finalize_atomic_frame hr).1 rfl,
   ((c6_finalize_atomic_frame hr).2.1 7 ["clear"] ["metrics"] 42).1,
   ((c6_finalize_atomic_frame hr).2.1 7 ["clear"] ["metrics"] 42).2.2.2.2.2.1⟩

/-- Membership invariant of the setup flow: the selected question count is
always one of the preset buttons. -/
theorem setup_count_mem {s : SetupState} (h : SetupReachable s) :
    s.questionCount ∈ questionCounts := by
  induction h with
  | init => simp [initialSetup, questionCounts]
  | step _ hs ih =>
      cases hs with
      | setRole r hr => simpa using ih
      | setCustomRole r => simpa using ih
      | setType t ht => simpa using ih
      | setDifficulty d hd => simpa using ih
      | setCount c hc => simpa using hc

/-- C10: every interview created through the setup flow has
`total_questions` equal to one of exactly 5, 10 or 15 (the initial
component state defaults to 5), status `in_progress`, and a job role that
is non-empty after trimming; creation is rejected before any persistence
call exactly when the role is empty or whitespace-only. -/
theorem c10_setup_constraints (s : SetupState) (uid : String)
    (h : SetupReachable s) :
    initialSetup.questionCount = 5 ∧
    (handleStartInterview s uid = none ↔ jsTrim (finalRole s) = "") ∧
    (∀ ins, handleStartInterview s uid = some ins →
      (ins.total_questions = 5 ∨ ins.total_questions = 10 ∨
        ins.total_questions = 15) ∧
      ins.status = .in_progress ∧
      jsTrim ins.job_role ≠ "") := by
  refine ⟨rfl, ?_, ?_⟩
  · by_cases hr : jsTrim (finalRole s) = "" <;> simp [handleStartInterview, hr]
  · intro ins hins
    by_cases hr : jsTrim (finalRole s) = ""
    · simp [handleStartInterview, hr] at hins
    · simp [handleStartInterview, hr] at hins
      have hc := setup_count_mem h
      subst hins
      refine ⟨?_, rfl, hr⟩
      simpa [questionCounts] using hc

/-- Witness for C10 at a concrete reachable setup state. -/
theorem c10_setup_constraints_witness :
    SetupReachable setupSample ∧
    (handleStartInterview setupSample "user-1" = none ↔
      jsTrim (finalRole setupSample) = "") ∧
    ((5 : Nat) = 5 ∨ (5 : Nat) = 10 ∨ (5 : Nat) = 15) ∧
    IStatus.in_progress = IStatus.in_progress ∧
    jsTrim "Software Engineer" ≠ "" :=
  have hr : SetupReachable setupSample :=
    SetupReachable.step SetupReachable.init
      (SetupStep.setRole initialSetup "Software Engineer" (by decide))
  have happ := c10_setup_constraints setupSample "user-1" hr
  have hins := happ.2.2
    { user_id := "user-1", job_role := "Software Engineer", difficulty := "mid"
      interview_type := "behavioral", total_questions := 5
      status := .in_progress } (by decide)
  ⟨hr, happ.2.1, hins.1, hins.2.1, hins.2.2⟩

end InterviewCoach
